import Mathlib

/-!
Verification of the real-time state-synchronization core of a simulated
securities-trading client.  The definitions below are shallow embeddings of
the TypeScript source:

* tick-size rules            — clerk-nextjs/src/lib/format.ts
* agent-event state machine  — clerk-nextjs/src/stores/agent-store.ts
* holdings/account recompute — clerk-nextjs/src/stores/trading-store.ts
* orderbook leveling         — the Orderbook component (asksWithAcc / bidsWithAcc)
* reconnect backoff          — the useAgentWebSocket hook
* REST price reconciliation  — clerk-nextjs/src/app/(dashboard)/trading/page.tsx

JavaScript numbers are modelled as rationals (all the arithmetic involved is
exact on the values the code manipulates); `Math.floor` is `Int.floor`,
`Math.round` is Mathlib's `round` (both round halves toward positive
infinity); absent (`undefined`) values are `Option`.
-/

/- ============================================================
   Tick rules (lib/format.ts)
   ============================================================ -/

/-- Function `getTickSize` from format.ts: banded KRX tick sizes. -/
def getTickSize (price : ℚ) : ℚ :=
  if price < 2000 then 1
  else if price < 5000 then 5
  else if price < 20000 then 10
  else if price < 50000 then 50
  else if price < 200000 then 100
  else if price < 500000 then 500
  else 1000

/-- Function `roundToTickUp` from format.ts: `Math.ceil(price / tick) * tick`. -/
def roundToTickUp (price : ℚ) : ℚ :=
  ⌈price / getTickSize price⌉ * getTickSize price

/-- Function `roundToTickDown` from format.ts: `Math.floor(price / tick) * tick`. -/
def roundToTickDown (price : ℚ) : ℚ :=
  ⌊price / getTickSize price⌋ * getTickSize price

/-- Function `tickUp` from format.ts: `price + tick`. -/
def tickUp (price : ℚ) : ℚ :=
  price + getTickSize price

/-- Function `tickDown` from format.ts: `Math.max(tick, price - tick)`. -/
def tickDown (price : ℚ) : ℚ :=
  max (getTickSize price) (price - getTickSize price)

/- Spec-side restatement of the tick rules (for the refinement claim C9);
these definitions follow the spec text, to be compared with the ones above
that were translated from the source. -/

/-- Modelled from the spec text of §4.3: the banded tick table. -/
def specTickSize (price : ℚ) : ℚ :=
  if price < 2000 then 1
  else if price < 5000 then 5
  else if price < 20000 then 10
  else if price < 50000 then 50
  else if price < 200000 then 100
  else if price < 500000 then 500
  else 1000

/-- Spec text: `roundDown(price) = floor(price/tick)*tick`. -/
def specRoundDown (price : ℚ) : ℚ :=
  ⌊price / specTickSize price⌋ * specTickSize price

/-- Spec text: `tickUp(price) = price + tick`. -/
def specTickUp (price : ℚ) : ℚ :=
  price + specTickSize price

/-- Spec text: `tickDown(price) = max(tick, price - tick)`. -/
def specTickDown (price : ℚ) : ℚ :=
  max (specTickSize price) (price - specTickSize price)

theorem getTickSize_pos (p : ℚ) : 0 < getTickSize p := by
  unfold getTickSize
  split_ifs <;> norm_num

/-- If `q` is an integer multiple of `t > 0` then flooring `q / t` and
re-multiplying gives back `q`. -/
theorem floor_div_mul_eq {t q : ℚ} (ht : 0 < t) (m : ℤ) (hm : q = m * t) :
    ⌊q / t⌋ * t = q := by
  subst hm
  rw [mul_div_assoc, div_self (ne_of_gt ht), mul_one, Int.floor_intCast]

/-- From `p = k * t` and `p < c * t` (with `t > 0`), the successor grid point
`p + t` stays at or below `c * t` and is still a multiple of `t`. -/
theorem grid_next {p t : ℚ} {k : ℤ} (ht : 0 < t) (hk : p = k * t) (c : ℤ)
    (hhi : p < c * t) : p + t ≤ c * t ∧ p + t = (k + 1 : ℤ) * t := by
  have hkc : (k : ℚ) < (c : ℚ) := by
    have := hhi
    rw [hk] at this
    exact lt_of_mul_lt_mul_right this (le_of_lt ht)
  have hkcz : k < c := by exact_mod_cast hkc
  have hk1 : (k + 1 : ℤ) ≤ c := hkcz
  constructor
  · have : ((k + 1 : ℤ) : ℚ) * t ≤ (c : ℚ) * t := by
      apply mul_le_mul_of_nonneg_right _ (le_of_lt ht)
      exact_mod_cast hk1
    calc p + t = ((k + 1 : ℤ) : ℚ) * t := by rw [hk]; push_cast; ring
    _ ≤ (c : ℚ) * t := this
  · rw [hk]; push_cast; ring

/-- On the tick grid, bumping a price by one tick lands on the tick grid of
the bumped price: the core of claim C4, restricted to grid prices. -/
theorem roundDown_tickUp_grid (p : ℚ) (k : ℤ) (hk : p = k * getTickSize p) :
    roundToTickDown (tickUp p) = tickUp p := by
  unfold tickUp roundToTickDown
  by_cases h1 : p < 2000
  · have ht : getTickSize p = 1 := by simp [getTickSize, h1]
    rw [ht] at hk ⊢
    obtain ⟨hle, heq⟩ := grid_next (t := 1) (by norm_num) hk 2000 (by push_cast; linarith)
    rcases lt_or_eq_of_le hle with hlt | hEq
    · have hqlt : p + 1 < 2000 := by push_cast at hlt; linarith
      have hq : getTickSize (p + 1) = 1 := by simp [getTickSize, hqlt]
      rw [hq]
      exact floor_div_mul_eq (by norm_num) (k + 1) heq
    · have h2000 : p + 1 = 2000 := by push_cast at hEq; linarith
      rw [h2000]
      have hq : getTickSize (2000 : ℚ) = 5 := by norm_num [getTickSize]
      rw [hq]
      exact floor_div_mul_eq (by norm_num) 400 (by norm_num)
  · by_cases h2 : p < 5000
    · have ht : getTickSize p = 5 := by simp [getTickSize, h1, h2]
      rw [ht] at hk ⊢
      obtain ⟨hle, heq⟩ := grid_next (t := 5) (by norm_num) hk 1000 (by push_cast; linarith)
      rcases lt_or_eq_of_le hle with hlt | hEq
      · have hqlt : p + 5 < 5000 := by push_cast at hlt; linarith
        have hlo : ¬ (p + 5 < 2000) := by push_neg at h1 ⊢; linarith
        have hq : getTickSize (p + 5) = 5 := by simp [getTickSize, hlo, hqlt]
        rw [hq]
        exact floor_div_mul_eq (by norm_num) (k + 1) heq
      · have hB : p + 5 = 5000 := by push_cast at hEq; linarith
        rw [hB]
        have hq : getTickSize (5000 : ℚ) = 10 := by norm_num [getTickSize]
        rw [hq]
        exact floor_div_mul_eq (by norm_num) 500 (by norm_num)
    · by_cases h3 : p < 20000
      · have ht : getTickSize p = 10 := by simp [getTickSize, h1, h2, h3]
        rw [ht] at hk ⊢
        obtain ⟨hle, heq⟩ := grid_next (t := 10) (by norm_num) hk 2000 (by push_cast; linarith)
        rcases lt_or_eq_of_le hle with hlt | hEq
        · have hqlt : p + 10 < 20000 := by push_cast at hlt; linarith
          have hlo1 : ¬ (p + 10 < 2000) := by push_neg at h1 ⊢; linarith
          have hlo2 : ¬ (p + 10 < 5000) := by push_neg at h2 ⊢; linarith
          have hq : getTickSize (p + 10) = 10 := by simp [getTickSize, hlo1, hlo2, hqlt]
          rw [hq]
          exact floor_div_mul_eq (by norm_num) (k + 1) heq
        · have hB : p + 10 = 20000 := by push_cast at hEq; linarith
          rw [hB]
          have hq : getTickSize (20000 : ℚ) = 50 := by norm_num [getTickSize]
          rw [hq]
          exact floor_div_mul_eq (by norm_num) 400 (by norm_num)
      · by_cases h4 : p < 50000
        · have ht : getTickSize p = 50 := by simp [getTickSize, h1, h2, h3, h4]
          rw [ht] at hk ⊢
          obtain ⟨hle, heq⟩ := grid_next (t := 50) (by norm_num) hk 1000 (by push_cast; linarith)
          rcases lt_or_eq_of_le hle with hlt | hEq
          · have hqlt : p + 50 < 50000 := by push_cast at hlt; linarith
            have hlo1 : ¬ (p + 50 < 2000) := by push_neg at h1 ⊢; linarith
            have hlo2 : ¬ (p + 50 < 5000) := by push_neg at h2 ⊢; linarith
            have hlo3 : ¬ (p + 50 < 20000) := by push_neg at h3 ⊢; linarith
            have hq : getTickSize (p + 50) = 50 := by
              simp [getTickSize, hlo1, hlo2, hlo3, hqlt]
            rw [hq]
            exact floor_div_mul_eq (by norm_num) (k + 1) heq
          · have hB : p + 50 = 50000 := by push_cast at hEq; linarith
            rw [hB]
            have hq : getTickSize (50000 : ℚ) = 100 := by norm_num [getTickSize]
            rw [hq]
            exact floor_div_mul_eq (by norm_num) 500 (by norm_num)
        · by_cases h5 : p < 200000
          · have ht : getTickSize p = 100 := by simp [getTickSize, h1, h2, h3, h4, h5]
            rw [ht] at hk ⊢
            obtain ⟨hle, heq⟩ :=
              grid_next (t := 100) (by norm_num) hk 2000 (by push_cast; linarith)
            rcases lt_or_eq_of_le hle with hlt | hEq
            · have hqlt : p + 100 < 200000 := by push_cast at hlt; linarith
              have hlo1 : ¬ (p + 100 < 2000) := by push_neg at h1 ⊢; linarith
              have hlo2 : ¬ (p + 100 < 5000) := by push_neg at h2 ⊢; linarith
              have hlo3 : ¬ (p + 100 < 20000) := by push_neg at h3 ⊢; linarith
              have hlo4 : ¬ (p + 100 < 50000) := by push_neg at h4 ⊢; linarith
              have hq : getTickSize (p + 100) = 100 := by
                simp [getTickSize, hlo1, hlo2, hlo3, hlo4, hqlt]
              rw [hq]
              exact floor_div_mul_eq (by norm_num) (k + 1) heq
            · have hB : p + 100 = 200000 := by push_cast at hEq; linarith
              rw [hB]
              have hq : getTickSize (200000 : ℚ) = 500 := by norm_num [getTickSize]
              rw [hq]
              exact floor_div_mul_eq (by norm_num) 400 (by norm_num)
          · by_cases h6 : p < 500000
            · have ht : getTickSize p = 500 := by
                simp [getTickSize, h1, h2, h3, h4, h5, h6]
              rw [ht] at hk ⊢
              obtain ⟨hle, heq⟩ :=
                grid_next (t := 500) (by norm_num) hk 1000 (by push_cast; linarith)
              rcases lt_or_eq_of_le hle with hlt | hEq
              · have hqlt : p + 500 < 500000 := by push_cast at hlt; linarith
                have hlo1 : ¬ (p + 500 < 2000) := by push_neg at h1 ⊢; linarith
                have hlo2 : ¬ (p + 500 < 5000) := by push_neg at h2 ⊢; linarith
                have hlo3 : ¬ (p + 500 < 20000) := by push_neg at h3 ⊢; linarith
                have hlo4 : ¬ (p + 500 < 50000) := by push_neg at h4 ⊢; linarith
                have hlo5 : ¬ (p + 500 < 200000) := by push_neg at h5 ⊢; linarith
                have hq : getTickSize (p + 500) = 500 := by
                  simp [getTickSize, hlo1, hlo2, hlo3, hlo4, hlo5, hqlt]
                rw [hq]
                exact floor_div_mul_eq (by norm_num) (k + 1) heq
              · have hB : p + 500 = 500000 := by push_cast at hEq; linarith
                rw [hB]
                have hq : getTickSize (500000 : ℚ) = 1000 := by norm_num [getTickSize]
                rw [hq]
                exact floor_div_mul_eq (by norm_num) 500 (by norm_num)
            · have ht : getTickSize p = 1000 := by
                simp [getTickSize, h1, h2, h3, h4, h5, h6]
              rw [ht] at hk ⊢
              have hlo1 : ¬ (p + 1000 < 2000) := by push_neg at h1 ⊢; linarith
              have hlo2 : ¬ (p + 1000 < 5000) := by push_neg at h2 ⊢; linarith
              have hlo3 : ¬ (p + 1000 < 20000) := by push_neg at h3 ⊢; linarith
              have hlo4 : ¬ (p + 1000 < 50000) := by push_neg at h4 ⊢; linarith
              have hlo5 : ¬ (p + 1000 < 200000) := by push_neg at h5 ⊢; linarith
              have hlo6 : ¬ (p + 1000 < 500000) := by push_neg at h6 ⊢; linarith
              have hq : getTickSize (p + 1000) = 1000 := by
                simp [getTickSize, hlo1, hlo2, hlo3, hlo4, hlo5, hlo6]
              rw [hq]
              exact floor_div_mul_eq (by norm_num) (k + 1) (by rw [hk]; push_cast; ring)

/- ============================================================
   Agent-event state machine (stores/agent-store.ts)
   ============================================================ -/

/-- One entry of a conversation's `participants` array.  The handler builds
these from fields cast with `as string`, which may be absent at runtime, so
both fields are optional. -/
structure Participant where
  agent_type : Option String
  name : Option String
deriving DecidableEq, Repr

/-- Structure `ConversationMessage` from types/agent.ts. -/
structure ConversationMessage where
  turn : ℚ
  round : Option ℚ
  speaker : String
  speaker_type : String
  content : String
  timestamp : String
deriving DecidableEq, Repr

/-- The fields of an agent event's `data` record (a JSON object) that
`handleAgentEvent` reads.  `asMessage` is the same record viewed as a
`ConversationMessage` (the handler casts `data` itself to a message for
`turn_message` events). -/
structure AgentEventData where
  topic : Option String
  initiator : Option String
  initiator_name : Option String
  target : Option String
  target_name : Option String
  max_turns : Option ℚ
  participants : Option (List Participant)
  total_rounds : Option ℚ
  meeting_type : Option String
  conclusion : Option String
  asMessage : ConversationMessage
deriving DecidableEq, Repr

/-- Inductive `AgentEventType` from types/agent.ts. -/
inductive AgentEventType where
  | conversation_start
  | turn_message
  | conversation_end
  | meeting_start
  | meeting_end
  | pong
deriving DecidableEq, Repr

/-- Structure `AgentEvent` from types/agent.ts. -/
structure AgentEvent where
  type : AgentEventType
  conversation_id : Option String
  data : Option AgentEventData
  timestamp : Option String
deriving DecidableEq, Repr

/-- Conversation lifecycle status. -/
inductive ConvStatus where
  | active
  | completed
deriving DecidableEq, Repr

/-- Structure `LiveConversation` from types/agent.ts.  `messages` holds `Option`s
because the handler appends `data as ConversationMessage`, which is
`undefined` when the event carried no `data`. -/
structure LiveConversation where
  conversation_id : String
  topic : String
  participants : List Participant
  messages : List (Option ConversationMessage)
  conclusion : Option String
  status : ConvStatus
  maxTurns : Option ℚ
  meetingType : Option String
deriving DecidableEq, Repr

/-- The `Map<string, LiveConversation>` of the store, as a lookup function
(`Map.get` returning `undefined` is `none`). -/
def StrMap (α : Type) : Type := String → Option α

/-- Operation `Map.set` on the (copied) conversations map. -/
def StrMap.setEntry {α : Type} (m : StrMap α) (k : String) (v : α) : StrMap α :=
  fun k2 => if k2 = k then some v else m k2

/-- The slice of the agent store that `handleAgentEvent` touches. -/
structure AgentStoreState where
  liveConversations : StrMap LiveConversation
  activeDebateId : Option String

/-- The JS truthiness test `!convId`: `undefined` and the empty string are
falsy. -/
def convIdFalsy : Option String → Bool
  | none => true
  | some s => s == ""

/-- Handler `handleAgentEvent` from agent-store.ts, as a state transformer. -/
def handleAgentEvent (event : AgentEvent) (s : AgentStoreState) : AgentStoreState :=
  if convIdFalsy event.conversation_id ∧ event.type ≠ .pong then s
  else
    let convId := event.conversation_id.getD ""
    match event.type with
    | .conversation_start =>
        let conv : LiveConversation :=
          { conversation_id := convId
            topic := (event.data.bind (·.topic)).getD ""
            participants :=
              [ { agent_type := event.data.bind (·.initiator),
                  name := event.data.bind (·.initiator_name) },
                { agent_type := event.data.bind (·.target),
                  name := event.data.bind (·.target_name) } ]
            messages := []
            conclusion := none
            status := .active
            maxTurns := some ((event.data.bind (·.max_turns)).getD 6)
            meetingType := none }
        { s with liveConversations := s.liveConversations.setEntry convId conv }
    | .meeting_start =>
        let conv : LiveConversation :=
          { conversation_id := convId
            topic := (event.data.bind (·.topic)).getD ""
            participants := (event.data.bind (·.participants)).getD []
            messages := []
            conclusion := none
            status := .active
            maxTurns := some (((event.data.bind (·.total_rounds)).getD 2) * 4)
            meetingType := some ((event.data.bind (·.meeting_type)).getD "meeting") }
        { s with liveConversations := s.liveConversations.setEntry convId conv }
    | .turn_message =>
        match s.liveConversations convId with
        | some conv =>
            let conv2 := { conv with messages := conv.messages ++ [event.data.map (·.asMessage)] }
            { s with liveConversations := s.liveConversations.setEntry convId conv2 }
        | none => s
    | .conversation_end | .meeting_end =>
        match s.liveConversations convId with
        | some conv =>
            let conv2 :=
              { conv with
                status := ConvStatus.completed
                conclusion := event.data.bind (·.conclusion) }
            { liveConversations := s.liveConversations.setEntry convId conv2
              activeDebateId :=
                if s.activeDebateId = some convId then none else s.activeDebateId }
        | none => s
    | .pong => s

/-- Folding a list of inbound events through the handler, in arrival order. -/
def runEvents (evs : List AgentEvent) (s : AgentStoreState) : AgentStoreState :=
  evs.foldl (fun st e => handleAgentEvent e st) s

/-- The two event types that (re)create a conversation entry. -/
def isStartType : AgentEventType → Bool
  | .conversation_start => true
  | .meeting_start => true
  | _ => false

/- Concrete fixtures reused by counterexamples and witnesses. -/

/-- A concrete message record. -/
def msg0 : ConversationMessage :=
  { turn := 1, round := none, speaker := "trend", speaker_type := "agent"
    content := "hello", timestamp := "t0" }

/-- An event `data` record with every optional field absent. -/
def evData0 : AgentEventData :=
  { topic := none, initiator := none, initiator_name := none, target := none
    target_name := none, max_turns := none, participants := none
    total_rounds := none, meeting_type := none, conclusion := none
    asMessage := msg0 }

/-- A `conversation_start` event for the given id, with no data payload. -/
def evStart (id : String) : AgentEvent :=
  { type := .conversation_start, conversation_id := some id, data := none, timestamp := none }

/-- A `turn_message` event for the given id carrying `evData0`. -/
def evMsg (id : String) : AgentEvent :=
  { type := .turn_message, conversation_id := some id, data := some evData0, timestamp := none }

/-- A `conversation_end` event for the given id carrying the given conclusion
(no `data` record at all when `concl` is `none`). -/
def evEnd (id : String) (concl : Option String) : AgentEvent :=
  { type := .conversation_end, conversation_id := some id
    data := concl.map (fun c => { evData0 with conclusion := some c }), timestamp := none }

/-- The store's initial state: empty conversation map, no active debate. -/
def emptyAgentState : AgentStoreState :=
  { liveConversations := fun _ => none, activeDebateId := none }

/- Helper lemma shared by the conversation-lifecycle claims: any event that is
not a start event keeps a completed conversation completed. -/

theorem step_completed (e : AgentEvent) (s : AgentStoreState) (id : String)
    (hty : isStartType e.type = false)
    (hc : (s.liveConversations id).map (·.status) = some ConvStatus.completed) :
    ((handleAgentEvent e s).liveConversations id).map (·.status) = some ConvStatus.completed := by
  obtain ⟨ty, cid, dat, ts⟩ := e
  simp only [isStartType] at hty
  cases ty
  case conversation_start => simp at hty
  case meeting_start => simp at hty
  case pong => simpa [handleAgentEvent] using hc
  case turn_message =>
    simp only [handleAgentEvent]
    split
    · exact hc
    · cases hm : (s.liveConversations ((cid : Option String).getD "")) with
      | none => simp only [hm]; exact hc
      | some conv =>
          simp only [hm, StrMap.setEntry]
          by_cases hid : id = (cid : Option String).getD ""
          · subst hid
            rw [hm] at hc
            simp only [Option.map_some'] at hc
            simp [hc]
          · simp only [if_neg hid]
            exact hc
  case conversation_end =>
    simp only [handleAgentEvent]
    split
    · exact hc
    · cases hm : (s.liveConversations ((cid : Option String).getD "")) with
      | none => simp only [hm]; exact hc
      | some conv =>
          simp only [hm, StrMap.setEntry]
          by_cases hid : id = (cid : Option String).getD ""
          · subst hid; simp
          · simp only [if_neg hid]
            exact hc
  case meeting_end =>
    simp only [handleAgentEvent]
    split
    · exact hc
    · cases hm : (s.liveConversations ((cid : Option String).getD "")) with
      | none => simp only [hm]; exact hc
      | some conv =>
          simp only [hm, StrMap.setEntry]
          by_cases hid : id = (cid : Option String).getD ""
          · subst hid; simp
          · simp only [if_neg hid]
            exact hc

/-- C1 (counterexample): the claim says a `turn_message` for an already
completed conversation is a no-op, but the handler has no status check:
after `conversation_start` then `conversation_end` on id c1, a further
`turn_message` appends a message to the completed conversation (message
count goes from 0 to 1). -/
theorem turn_message_after_completed_cex :
    ((runEvents [evStart "c1", evEnd "c1" none] emptyAgentState).liveConversations "c1").map
        (fun c => (c.status, c.messages.length)) = some (ConvStatus.completed, 0)
    ∧ ((runEvents [evStart "c1", evEnd "c1" none, evMsg "c1"]
          emptyAgentState).liveConversations "c1").map
        (fun c => (c.status, c.messages.length)) = some (ConvStatus.completed, 1) :=
  ⟨by decide, by decide⟩

/-- C1 (amended): a `turn_message` appends its payload to the stored
conversation whenever the conversation exists — regardless of its status,
including completed ones — and in every other case (missing/empty id, or
unknown id) it is a no-op that leaves the map unchanged, never creates a
conversation and never throws (the handler is a total function). -/
theorem turn_message_append_iff_exists (ev : AgentEvent) (s : AgentStoreState)
    (hty : ev.type = AgentEventType.turn_message) :
    (convIdFalsy ev.conversation_id = true → handleAgentEvent ev s = s)
    ∧ (s.liveConversations (ev.conversation_id.getD "") = none → handleAgentEvent ev s = s)
    ∧ (∀ conv, convIdFalsy ev.conversation_id = false →
        s.liveConversations (ev.conversation_id.getD "") = some conv →
        (handleAgentEvent ev s).activeDebateId = s.activeDebateId
        ∧ (handleAgentEvent ev s).liveConversations =
            s.liveConversations.setEntry (ev.conversation_id.getD "")
              { conv with messages := conv.messages ++ [ev.data.map (·.asMessage)] }) := by
  obtain ⟨ty, cid, dat, ts⟩ := ev
  simp only at hty
  subst hty
  refine ⟨?_, ?_, ?_⟩
  · intro hf
    simp [handleAgentEvent, hf]
  · intro hnone
    by_cases hf : convIdFalsy cid = true
    · simp [handleAgentEvent, hf]
    · simp only [handleAgentEvent]
      rw [if_neg]
      · simp only [hnone]
      · simp_all
  · intro conv hf hsome
    constructor
    · simp only [handleAgentEvent]
      rw [if_neg (by simp_all)]
      simp only [hsome]
    · simp only [handleAgentEvent]
      rw [if_neg (by simp_all)]
      simp only [hsome]

/-- Witness for C1's theorem: a `turn_message` for an id absent from an empty
store leaves the state untouched. -/
theorem turn_message_append_iff_exists_witness :
    handleAgentEvent (evMsg "c1") emptyAgentState = emptyAgentState :=
  (turn_message_append_iff_exists (evMsg "c1") emptyAgentState rfl).2.1 rfl

/-- C3 (counterexample): the claim says status never goes back from completed
to active, but a second `conversation_start` for an id that was already
sealed re-creates the entry with status active. -/
theorem restart_revives_completed_cex :
    ((runEvents [evStart "c1", evEnd "c1" none] emptyAgentState).liveConversations "c1").map
        (·.status) = some ConvStatus.completed
    ∧ ((runEvents [evStart "c1", evEnd "c1" none, evStart "c1"]
          emptyAgentState).liveConversations "c1").map (·.status) = some ConvStatus.active :=
  ⟨by decide, by decide⟩

/-- C3 (amended): under any sequence of inbound events containing no
`conversation_start` / `meeting_start`, a conversation whose stored status is
completed stays completed; only a start event re-creating the entry wholesale
can make the stored status active again. -/
theorem completed_persists_without_start (evs : List AgentEvent) (s : AgentStoreState)
    (id : String)
    (hty : ∀ e ∈ evs, isStartType e.type = false)
    (hc : (s.liveConversations id).map (·.status) = some ConvStatus.completed) :
    ((runEvents evs s).liveConversations id).map (·.status) = some ConvStatus.completed := by
  induction evs generalizing s with
  | nil => exact hc
  | cons e rest ih =>
      exact ih _ (fun x hx => hty x (List.mem_cons_of_mem _ hx))
        (step_completed e s id (hty e (List.mem_cons_self _ _)) hc)

/-- Witness for C3's theorem: after sealing c1, a message and another end
event leave it completed. -/
theorem completed_persists_without_start_witness :
    ((runEvents [evMsg "c1", evEnd "c1" none]
        (runEvents [evStart "c1", evEnd "c1" none] emptyAgentState)).liveConversations
      "c1").map (·.status) = some ConvStatus.completed :=
  completed_persists_without_start _ _ _ (by decide) (by decide)

/-- C5 (counterexample): the claim says a second `conversation_end` leaves
the stored fields (including the conclusion) unchanged, but the handler
overwrites the conclusion with the new event's conclusion: ending c1 with
conclusion ok and then ending it again with no payload erases the stored
conclusion. -/
theorem double_end_overwrites_conclusion_cex :
    ((runEvents [evStart "c1", evEnd "c1" (some "ok")] emptyAgentState).liveConversations
        "c1").map (·.conclusion) = some (some "ok")
    ∧ ((runEvents [evStart "c1", evEnd "c1" (some "ok"), evEnd "c1" none]
          emptyAgentState).liveConversations "c1").map (·.conclusion) = some none :=
  ⟨by decide, by decide⟩

/-- C5 (amended): a second end event for an already completed conversation
keeps the status completed, keeps topic/participants/messages/maxTurns/
meetingType unchanged, leaves every other map entry alone, and does not
touch the active-debate pointer when it no longer points at this id — but it
does overwrite the stored conclusion with the second event's conclusion
(erasing it when the event carries none). -/
theorem second_end_keeps_completed (ev : AgentEvent) (s : AgentStoreState) (cid : String)
    (conv : LiveConversation)
    (hty : ev.type = AgentEventType.conversation_end ∨ ev.type = AgentEventType.meeting_end)
    (hid : ev.conversation_id = some cid) (hcid : cid ≠ "")
    (hconv : s.liveConversations cid = some conv)
    (hst : conv.status = ConvStatus.completed)
    (hact : s.activeDebateId ≠ some cid) :
    (handleAgentEvent ev s).liveConversations cid =
        some { conv with status := ConvStatus.completed,
                         conclusion := ev.data.bind (·.conclusion) }
    ∧ (handleAgentEvent ev s).activeDebateId = s.activeDebateId
    ∧ ∀ id2, id2 ≠ cid →
        (handleAgentEvent ev s).liveConversations id2 = s.liveConversations id2 := by
  obtain ⟨ty, cid0, dat, ts⟩ := ev
  simp only at hty hid
  subst hid
  have hguard : ¬ (convIdFalsy (some cid) = true ∧ ty ≠ AgentEventType.pong) := by
    simp [convIdFalsy, hcid]
  have hgetd : (some cid).getD "" = cid := rfl
  rcases hty with hty | hty
  · subst hty
    refine ⟨?_, ?_, ?_⟩
    · simp only [handleAgentEvent, if_neg hguard, hgetd, hconv, StrMap.setEntry]
      simp
    · simp only [handleAgentEvent, if_neg hguard, hgetd, hconv]
      simp [hact]
    · intro id2 hne
      simp only [handleAgentEvent, if_neg hguard, hgetd, hconv, StrMap.setEntry]
      simp [if_neg hne]
  · subst hty
    refine ⟨?_, ?_, ?_⟩
    · simp only [handleAgentEvent, if_neg hguard, hgetd, hconv, StrMap.setEntry]
      simp
    · simp only [handleAgentEvent, if_neg hguard, hgetd, hconv]
      simp [hact]
    · intro id2 hne
      simp only [handleAgentEvent, if_neg hguard, hgetd, hconv, StrMap.setEntry]
      simp [if_neg hne]

/-- The conversation record stored for c1 after a bare `conversation_start`
followed by a `conversation_end` with conclusion ok. -/
def convC1Sealed : LiveConversation :=
  { conversation_id := "c1"
    topic := ""
    participants := [ { agent_type := none, name := none }, { agent_type := none, name := none } ]
    messages := []
    conclusion := some "ok"
    status := ConvStatus.completed
    maxTurns := some 6
    meetingType := none }

/-- Witness for C5's theorem: ending the already sealed c1 a second time (no
payload) does not touch the active-debate pointer. -/
theorem second_end_keeps_completed_witness :
    (handleAgentEvent (evEnd "c1" none)
        (runEvents [evStart "c1", evEnd "c1" (some "ok")] emptyAgentState)).activeDebateId =
      (runEvents [evStart "c1", evEnd "c1" (some "ok")] emptyAgentState).activeDebateId :=
  (second_end_keeps_completed (evEnd "c1" none) _ "c1" convC1Sealed (Or.inl rfl) rfl
    (by decide) (by decide) (by decide) (by decide)).2.1

/-- C10: for every inbound agent event, `handleAgentEvent` modifies at most
the conversation-map entry keyed by the event's conversation id (plus the
active-debate pointer): every conversation stored under a different id is
left unchanged, and no event ever removes an entry from the map. -/
theorem handleAgentEvent_frame (ev : AgentEvent) (s : AgentStoreState) :
    (∀ id, id ≠ ev.conversation_id.getD "" →
        (handleAgentEvent ev s).liveConversations id = s.liveConversations id)
    ∧ (∀ id, (handleAgentEvent ev s).liveConversations id = none →
        s.liveConversations id = none) := by
  obtain ⟨ty, cid, dat, ts⟩ := ev
  cases ty with
  | pong =>
      constructor <;> intro id <;> by_cases hf : convIdFalsy cid = true <;>
        simp [handleAgentEvent, hf]
  | conversation_start =>
      constructor <;> intro id
      · intro hne
        simp only at hne
        by_cases hf : convIdFalsy cid = true
        · simp [handleAgentEvent, hf]
        · simp [handleAgentEvent, hf, StrMap.setEntry, hne]
      · by_cases hf : convIdFalsy cid = true
        · simp [handleAgentEvent, hf]
        · simp only [handleAgentEvent, StrMap.setEntry]
          by_cases hid : id = cid.getD "" <;> simp [StrMap.setEntry, hf, hid]
  | meeting_start =>
      constructor <;> intro id
      · intro hne
        simp only at hne
        by_cases hf : convIdFalsy cid = true
        · simp [handleAgentEvent, hf]
        · simp [handleAgentEvent, hf, StrMap.setEntry, hne]
      · by_cases hf : convIdFalsy cid = true
        · simp [handleAgentEvent, hf]
        · simp only [handleAgentEvent, StrMap.setEntry]
          by_cases hid : id = cid.getD "" <;> simp [StrMap.setEntry, hf, hid]
  | turn_message =>
      constructor <;> intro id
      · intro hne
        simp only at hne
        by_cases hf : convIdFalsy cid = true
        · simp [handleAgentEvent, hf]
        · cases hm : s.liveConversations (cid.getD "") with
          | none => simp [handleAgentEvent, hf, hm]
          | some conv => simp [handleAgentEvent, hf, hm, StrMap.setEntry, hne]
      · by_cases hf : convIdFalsy cid = true
        · simp [handleAgentEvent, hf]
        · cases hm : s.liveConversations (cid.getD "") with
          | none => simp [handleAgentEvent, hf, hm]
          | some conv =>
              simp only [handleAgentEvent, StrMap.setEntry, hm]
              by_cases hid : id = cid.getD "" <;> simp [StrMap.setEntry, hf, hid, hm]
  | conversation_end =>
      constructor <;> intro id
      · intro hne
        simp only at hne
        by_cases hf : convIdFalsy cid = true
        · simp [handleAgentEvent, hf]
        · cases hm : s.liveConversations (cid.getD "") with
          | none => simp [handleAgentEvent, hf, hm]
          | some conv => simp [handleAgentEvent, hf, hm, StrMap.setEntry, hne]
      · by_cases hf : convIdFalsy cid = true
        · simp [handleAgentEvent, hf]
        · cases hm : s.liveConversations (cid.getD "") with
          | none => simp [handleAgentEvent, hf, hm]
          | some conv =>
              simp only [handleAgentEvent, StrMap.setEntry, hm]
              by_cases hid : id = cid.getD "" <;> simp [StrMap.setEntry, hf, hid, hm]
  | meeting_end =>
      constructor <;> intro id
      · intro hne
        simp only at hne
        by_cases hf : convIdFalsy cid = true
        · simp [handleAgentEvent, hf]
        · cases hm : s.liveConversations (cid.getD "") with
          | none => simp [handleAgentEvent, hf, hm]
          | some conv => simp [handleAgentEvent, hf, hm, StrMap.setEntry, hne]
      · by_cases hf : convIdFalsy cid = true
        · simp [handleAgentEvent, hf]
        · cases hm : s.liveConversations (cid.getD "") with
          | none => simp [handleAgentEvent, hf, hm]
          | some conv =>
              simp only [handleAgentEvent, StrMap.setEntry, hm]
              by_cases hid : id = cid.getD "" <;> simp [StrMap.setEntry, hf, hid, hm]

/-- Witness for C10's theorem: a `conversation_start` for c1 leaves the entry
stored under a different id untouched. -/
theorem handleAgentEvent_frame_witness :
    (handleAgentEvent (evStart "c1") emptyAgentState).liveConversations "c2" =
      emptyAgentState.liveConversations "c2" :=
  (handleAgentEvent_frame (evStart "c1") emptyAgentState).1 "c2" (by decide)

/- ============================================================
   Holdings / account revaluation (stores/trading-store.ts,
   ws.onmessage price_update branch)
   ============================================================ -/

/-- The spec's round-to-2-decimals: JS `Math.round(x * 100) / 100`. -/
def round2 (x : ℚ) : ℚ := ((round (x * 100) : ℤ) : ℚ) / 100

/-- Structure `Holding` from types/trading.ts. -/
structure Holding where
  stockCode : String
  stockName : String
  quantity : ℚ
  avgPrice : ℚ
  currentPrice : ℚ
  totalValue : ℚ
  profit : ℚ
  profitRate : ℚ
deriving DecidableEq, Repr

/-- Structure `Account` from types/trading.ts. -/
structure Account where
  id : String
  userId : String
  balance : ℚ
  initialCapital : ℚ
  totalAsset : ℚ
  totalProfit : ℚ
  totalProfitRate : ℚ
  createdAt : String
deriving DecidableEq, Repr

/-- The per-holding revaluation of the `price_update` branch of
`ws.onmessage` in trading-store.ts (`Math.round((p/c)*10000)/100`). -/
def updateHoldingPrice (newPrice : ℚ) (h : Holding) : Holding :=
  let newTotalValue := newPrice * h.quantity
  let cost := h.avgPrice * h.quantity
  let newProfit := newTotalValue - cost
  let newProfitRate := if 0 < cost then ((round (newProfit / cost * 10000) : ℤ) : ℚ) / 100 else 0
  { h with currentPrice := newPrice, totalValue := newTotalValue, profit := newProfit,
           profitRate := newProfitRate }

/-- Total value of the holdings: `reduce((sum, item) => sum + item.totalValue, 0)`. -/
def holdingsTotal (hs : List Holding) : ℚ :=
  hs.foldl (fun sum item => sum + item.totalValue) 0

/-- The account revaluation that follows a holding update in the same
`price_update` branch. -/
def recomputeAccount (hs : List Holding) (a : Account) : Account :=
  let newTotalAsset := a.balance + holdingsTotal hs
  let newAccountProfit := newTotalAsset - a.initialCapital
  let newAccountProfitRate :=
    if 0 < a.initialCapital
    then ((round (newAccountProfit / a.initialCapital * 10000) : ℤ) : ℚ) / 100
    else 0
  { a with totalAsset := newTotalAsset, totalProfit := newAccountProfit,
           totalProfitRate := newAccountProfitRate }

/-- The whole holdings+account projection of a `price_update` event:
find the (first) holding whose code matches, revalue it in place, then
recompute the account if one exists.  No match, or an empty holdings list,
leaves both untouched. -/
def applyPriceUpdateHoldings (stock_code : String) (price : ℚ) (hs : List Holding)
    (acct : Option Account) : List Holding × Option Account :=
  match hs.findIdx? (fun h => h.stockCode == stock_code) with
  | none => (hs, acct)
  | some i =>
      match hs[i]? with
      | none => (hs, acct)
      | some h =>
          let updated := hs.set i (updateHoldingPrice price h)
          (updated, acct.map (recomputeAccount updated))

/-- C7: for every `price_update` whose code matches a holding, the recomputed
holding satisfies `totalValue = currentPrice*quantity`,
`profit = totalValue - avgPrice*quantity`, and
`profitRate = round2(profit/(avgPrice*quantity)*100)` when the cost basis is
positive (else 0); and the account is recomputed so that
`totalAsset = balance + Σ totalValue`, `totalProfit = totalAsset -
initialCapital`, and `totalProfitRate = round2(totalProfit/initialCapital*100)`
when `initialCapital > 0`. -/
theorem priceUpdate_holding_account (code : String) (price : ℚ) (hs : List Holding)
    (a : Account) (i : ℕ) (h : Holding)
    (hfind : hs.findIdx? (fun x => x.stockCode == code) = some i)
    (hget : hs[i]? = some h) :
    ∃ h2 a2,
      (applyPriceUpdateHoldings code price hs (some a)).1[i]? = some h2
      ∧ (applyPriceUpdateHoldings code price hs (some a)).2 = some a2
      ∧ h2.currentPrice = price
      ∧ h2.totalValue = h2.currentPrice * h2.quantity
      ∧ h2.profit = h2.totalValue - h2.avgPrice * h2.quantity
      ∧ h2.profitRate =
          (if 0 < h2.avgPrice * h2.quantity
           then round2 (h2.profit / (h2.avgPrice * h2.quantity) * 100)
           else 0)
      ∧ a2.totalAsset =
          a2.balance + holdingsTotal (applyPriceUpdateHoldings code price hs (some a)).1
      ∧ a2.totalProfit = a2.totalAsset - a2.initialCapital
      ∧ (0 < a2.initialCapital →
          a2.totalProfitRate = round2 (a2.totalProfit / a2.initialCapital * 100)) := by
  have hlt : i < hs.length := by
    rcases List.getElem?_eq_some.mp hget with ⟨hl, _⟩
    exact hl
  have happ : applyPriceUpdateHoldings code price hs (some a) =
      (hs.set i (updateHoldingPrice price h),
       some (recomputeAccount (hs.set i (updateHoldingPrice price h)) a)) := by
    unfold applyPriceUpdateHoldings
    rw [hfind]
    simp [hget]
  refine ⟨updateHoldingPrice price h,
          recomputeAccount (hs.set i (updateHoldingPrice price h)) a,
          ?_, ?_, ?_, ?_, ?_, ?_, ?_, ?_, ?_⟩
  · rw [happ]
    simp [List.getElem?_set_self hlt]
  · rw [happ]
  · simp [updateHoldingPrice]
  · simp [updateHoldingPrice]
  · simp [updateHoldingPrice]
  · simp only [updateHoldingPrice, round2]
    split_ifs with hc
    · congr 1
      congr 1
      ring_nf
    · rfl
  · rw [happ]
    simp [recomputeAccount]
  · simp [recomputeAccount]
  · intro hpos
    simp only [recomputeAccount] at hpos ⊢
    rw [if_pos hpos]
    simp only [round2]
    congr 2
    ring_nf

/-- A concrete holding in Samsung Electronics. -/
def fixHoldingA : Holding :=
  { stockCode := "005930", stockName := "SamsungElec", quantity := 10, avgPrice := 70000,
    currentPrice := 70000, totalValue := 700000, profit := 0, profitRate := 0 }

/-- A second concrete holding. -/
def fixHoldingB : Holding :=
  { stockCode := "000660", stockName := "SKHynix", quantity := 5, avgPrice := 100000,
    currentPrice := 100000, totalValue := 500000, profit := 0, profitRate := 0 }

/-- A concrete two-element holdings list. -/
def fixHoldings : List Holding := [fixHoldingA, fixHoldingB]

/-- A concrete account. -/
def fixAccount : Account :=
  { id := "acct1", userId := "u1", balance := 1000000, initialCapital := 2000000,
    totalAsset := 2200000, totalProfit := 200000, totalProfitRate := 10, createdAt := "t0" }

/-- Witness for C7's theorem at a concrete `price_update` of 71,000 for the
Samsung holding. -/
theorem priceUpdate_holding_account_witness :
    ∃ h2 a2,
      (applyPriceUpdateHoldings "005930" 71000 fixHoldings (some fixAccount)).1[0]? = some h2
      ∧ (applyPriceUpdateHoldings "005930" 71000 fixHoldings (some fixAccount)).2 = some a2
      ∧ h2.currentPrice = 71000
      ∧ h2.totalValue = h2.currentPrice * h2.quantity
      ∧ h2.profit = h2.totalValue - h2.avgPrice * h2.quantity
      ∧ h2.profitRate =
          (if 0 < h2.avgPrice * h2.quantity
           then round2 (h2.profit / (h2.avgPrice * h2.quantity) * 100)
           else 0)
      ∧ a2.totalAsset =
          a2.balance + holdingsTotal (applyPriceUpdateHoldings "005930" 71000 fixHoldings
            (some fixAccount)).1
      ∧ a2.totalProfit = a2.totalAsset - a2.initialCapital
      ∧ (0 < a2.initialCapital →
          a2.totalProfitRate = round2 (a2.totalProfit / a2.initialCapital * 100)) :=
  priceUpdate_holding_account "005930" 71000 fixHoldings fixAccount 0 fixHoldingA
    (by decide) (by decide)

/- ============================================================
   Orderbook leveling (Orderbook component, asksWithAcc / bidsWithAcc)
   ============================================================ -/

/-- Structure `OrderbookLevel` from types/trading.ts. -/
structure OrderbookLevel where
  price : ℚ
  volume : ℚ
  accumulatedVolume : Option ℚ
deriving DecidableEq, Repr

/-- Sorting `[...levels].sort((a, b) => b.price - a.price)`: sort by price
descending. -/
def sortByPriceDesc (ls : List OrderbookLevel) : List OrderbookLevel :=
  ls.mergeSort (fun a b => decide (b.price ≤ a.price))

/-- The running cumulative-volume pass of `asksWithAcc` / `bidsWithAcc`:
`acc += level.volume; { ...level, accumulatedVolume: acc }`. -/
def withAccumulated (acc : ℚ) : List OrderbookLevel → List OrderbookLevel
  | [] => []
  | l :: ls =>
      let acc2 := acc + l.volume
      { l with accumulatedVolume := some acc2 } :: withAccumulated acc2 ls

/-- Function `asksWithAcc` from the Orderbook component: sort descending, keep the
top 10, accumulate volumes in that order. -/
def asksWithAcc (asks : List OrderbookLevel) : List OrderbookLevel :=
  withAccumulated 0 ((sortByPriceDesc asks).take 10)

/-- Function `bidsWithAcc` from the Orderbook component (same computation as the ask
side). -/
def bidsWithAcc (bids : List OrderbookLevel) : List OrderbookLevel :=
  withAccumulated 0 ((sortByPriceDesc bids).take 10)

theorem withAccumulated_map_pv (acc : ℚ) (ls : List OrderbookLevel) :
    (withAccumulated acc ls).map (fun l => (l.price, l.volume))
      = ls.map (fun l => (l.price, l.volume)) := by
  induction ls generalizing acc with
  | nil => rfl
  | cons l t ih => simp [withAccumulated, ih]

theorem withAccumulated_length (acc : ℚ) (ls : List OrderbookLevel) :
    (withAccumulated acc ls).length = ls.length := by
  have h := congrArg List.length (withAccumulated_map_pv acc ls)
  simpa using h

theorem withAccumulated_acc (acc : ℚ) (ls : List OrderbookLevel) (i : ℕ)
    (hi : i < ls.length) :
    ((withAccumulated acc ls)[i]?).bind (·.accumulatedVolume)
      = some (acc + ((ls.take (i + 1)).map (·.volume)).sum) := by
  induction ls generalizing acc i with
  | nil => simp at hi
  | cons l t ih =>
      cases i with
      | zero => simp [withAccumulated]
      | succ j =>
          have hj : j < t.length := by simpa using hi
          simp only [withAccumulated, List.getElem?_cons_succ]
          rw [ih _ j hj]
          congr 1
          simp [List.sum_cons]
          ring

theorem withAccumulated_chain (acc : ℚ) (ls : List OrderbookLevel)
    (h : ∀ l ∈ ls, 0 ≤ l.volume) :
    List.Chain' (fun a b => a.accumulatedVolume.getD 0 ≤ b.accumulatedVolume.getD 0)
      (withAccumulated acc ls) := by
  induction ls generalizing acc with
  | nil => simp [withAccumulated]
  | cons l t ih =>
      cases t with
      | nil => simp [withAccumulated]
      | cons m u =>
          simp only [withAccumulated]
          rw [List.chain'_cons]
          constructor
          · have hm : 0 ≤ m.volume := h m (by simp)
            simp
            linarith
          · have hrest : ∀ x ∈ m :: u, 0 ≤ x.volume :=
              fun x hx => h x (List.mem_cons_of_mem _ hx)
            simpa [withAccumulated] using ih (acc + l.volume) hrest

theorem sortByPriceDesc_pairwise (ls : List OrderbookLevel) :
    List.Pairwise (fun a b => (fun x y : OrderbookLevel => decide (y.price ≤ x.price)) a b = true)
      (sortByPriceDesc ls) := by
  apply List.sorted_mergeSort
  · intro a b c hab hbc
    simp at hab hbc ⊢
    linarith
  · intro a b
    simp [le_total]

theorem leveling_aux (ls : List OrderbookLevel) :
    (withAccumulated 0 ((sortByPriceDesc ls).take 10)).length = min 10 ls.length
    ∧ List.Pairwise (fun a b => b.price ≤ a.price)
        (withAccumulated 0 ((sortByPriceDesc ls).take 10))
    ∧ ((withAccumulated 0 ((sortByPriceDesc ls).take 10)).map (fun l => (l.price, l.volume))
        ++ ((sortByPriceDesc ls).drop 10).map (fun l => (l.price, l.volume))).Perm
          (ls.map (fun l => (l.price, l.volume)))
    ∧ (∀ b ∈ (sortByPriceDesc ls).drop 10,
        ∀ a ∈ withAccumulated 0 ((sortByPriceDesc ls).take 10), b.price ≤ a.price)
    ∧ (∀ i, i < (withAccumulated 0 ((sortByPriceDesc ls).take 10)).length →
        ((withAccumulated 0 ((sortByPriceDesc ls).take 10))[i]?).bind (·.accumulatedVolume)
          = some ((((sortByPriceDesc ls).take 10).take (i + 1)).map (·.volume)).sum)
    ∧ ((∀ l ∈ ls, 0 ≤ l.volume) →
        List.Chain' (fun a b => a.accumulatedVolume.getD 0 ≤ b.accumulatedVolume.getD 0)
          (withAccumulated 0 ((sortByPriceDesc ls).take 10))) := by
  have hpair := sortByPriceDesc_pairwise ls
  have hpairP : List.Pairwise (fun a b => b.price ≤ a.price) (sortByPriceDesc ls) := by
    apply hpair.imp
    intro a b hab
    simpa using hab
  have hperm : (sortByPriceDesc ls).Perm ls := List.mergeSort_perm ls _
  refine ⟨?_, ?_, ?_, ?_, ?_, ?_⟩
  · rw [withAccumulated_length, List.length_take]
    rw [hperm.length_eq]
  · have htake : List.Pairwise (fun a b => b.price ≤ a.price) ((sortByPriceDesc ls).take 10) :=
      hpairP.sublist (List.take_sublist 10 _)
    rw [← List.pairwise_map (f := fun l : OrderbookLevel => (l.price, l.volume))
      (R := fun x y : ℚ × ℚ => y.1 ≤ x.1)] at htake ⊢
    rwa [withAccumulated_map_pv]
  · rw [withAccumulated_map_pv, ← List.map_append, List.take_append_drop]
    exact hperm.map _
  · intro b hb a ha
    have hmem : (a.price, a.volume) ∈
        ((sortByPriceDesc ls).take 10).map (fun l => (l.price, l.volume)) := by
      rw [← withAccumulated_map_pv 0 ((sortByPriceDesc ls).take 10)]
      exact List.mem_map_of_mem _ ha
    rcases List.mem_map.mp hmem with ⟨a0, ha0, hpv⟩
    have hprice : a0.price = a.price := congrArg Prod.fst hpv
    have hsplit := hpairP
    rw [← List.take_append_drop 10 (sortByPriceDesc ls)] at hsplit
    have hdom := (List.pairwise_append.mp hsplit).2.2
    have hba := hdom a0 ha0 b hb
    linarith [hba]
  · intro i hi
    rw [withAccumulated_length] at hi
    rw [withAccumulated_acc 0 _ i hi]
    congr 1
    simp
  · intro hvol
    apply withAccumulated_chain
    intro l hl
    apply hvol
    have hmem : l ∈ sortByPriceDesc ls := List.mem_of_mem_take hl
    exact hperm.mem_iff.mp hmem

/-- C8: for every orderbook input, the reconciled ask display is exactly the
(at most) 10 highest-priced levels sorted in descending price order — its
length is `min 10 n`, its prices are pairwise descending, its
(price, volume) contents together with the dropped levels are a permutation
of the input, and every dropped level's price is at most every displayed
level's price — and each displayed level carries an `accumulatedVolume`
equal to the running sum of volumes in the sorted order, which is
monotonically non-decreasing when all volumes are non-negative; the same
holds for bids. -/
theorem orderbook_leveling (asks bids : List OrderbookLevel) :
    ((asksWithAcc asks).length = min 10 asks.length
      ∧ List.Pairwise (fun a b => b.price ≤ a.price) (asksWithAcc asks)
      ∧ ((asksWithAcc asks).map (fun l => (l.price, l.volume))
          ++ ((sortByPriceDesc asks).drop 10).map (fun l => (l.price, l.volume))).Perm
            (asks.map (fun l => (l.price, l.volume)))
      ∧ (∀ b ∈ (sortByPriceDesc asks).drop 10, ∀ a ∈ asksWithAcc asks, b.price ≤ a.price)
      ∧ (∀ i, i < (asksWithAcc asks).length →
          ((asksWithAcc asks)[i]?).bind (·.accumulatedVolume)
            = some ((((sortByPriceDesc asks).take 10).take (i + 1)).map (·.volume)).sum)
      ∧ ((∀ l ∈ asks, 0 ≤ l.volume) →
          List.Chain' (fun a b => a.accumulatedVolume.getD 0 ≤ b.accumulatedVolume.getD 0)
            (asksWithAcc asks)))
    ∧ ((bidsWithAcc bids).length = min 10 bids.length
      ∧ List.Pairwise (fun a b => b.price ≤ a.price) (bidsWithAcc bids)
      ∧ ((bidsWithAcc bids).map (fun l => (l.price, l.volume))
          ++ ((sortByPriceDesc bids).drop 10).map (fun l => (l.price, l.volume))).Perm
            (bids.map (fun l => (l.price, l.volume)))
      ∧ (∀ b ∈ (sortByPriceDesc bids).drop 10, ∀ a ∈ bidsWithAcc bids, b.price ≤ a.price)
      ∧ (∀ i, i < (bidsWithAcc bids).length →
          ((bidsWithAcc bids)[i]?).bind (·.accumulatedVolume)
            = some ((((sortByPriceDesc bids).take 10).take (i + 1)).map (·.volume)).sum)
      ∧ ((∀ l ∈ bids, 0 ≤ l.volume) →
          List.Chain' (fun a b => a.accumulatedVolume.getD 0 ≤ b.accumulatedVolume.getD 0)
            (bidsWithAcc bids))) :=
  ⟨leveling_aux asks, leveling_aux bids⟩

/-- A concrete 15-level ask book with scrambled prices. -/
def fixAsks : List OrderbookLevel :=
  [ { price := 71500, volume := 3, accumulatedVolume := none },
    { price := 70900, volume := 7, accumulatedVolume := none },
    { price := 71200, volume := 1, accumulatedVolume := none },
    { price := 70800, volume := 9, accumulatedVolume := none },
    { price := 71800, volume := 2, accumulatedVolume := none },
    { price := 71000, volume := 5, accumulatedVolume := none },
    { price := 71300, volume := 4, accumulatedVolume := none },
    { price := 70700, volume := 8, accumulatedVolume := none },
    { price := 71600, volume := 6, accumulatedVolume := none },
    { price := 70600, volume := 11, accumulatedVolume := none },
    { price := 71100, volume := 10, accumulatedVolume := none },
    { price := 71400, volume := 12, accumulatedVolume := none },
    { price := 70500, volume := 13, accumulatedVolume := none },
    { price := 71700, volume := 14, accumulatedVolume := none },
    { price := 71900, volume := 15, accumulatedVolume := none } ]

/-- Witness for C8's theorem at a concrete 15-level book: the display keeps
exactly 10 levels and its cumulative volumes are non-decreasing. -/
theorem orderbook_leveling_witness :
    (asksWithAcc fixAsks).length = min 10 fixAsks.length
    ∧ List.Chain' (fun a b => a.accumulatedVolume.getD 0 ≤ b.accumulatedVolume.getD 0)
        (asksWithAcc fixAsks) :=
  ⟨(orderbook_leveling fixAsks fixAsks).1.1,
   (orderbook_leveling fixAsks fixAsks).1.2.2.2.2.2 (by decide)⟩

/- ============================================================
   Reconnect backoff (useAgentWebSocket hook)
   ============================================================ -/

/-- Constant `MAX_RECONNECT_DELAY` (ms) from the agent WebSocket hook. -/
def MAX_RECONNECT_DELAY : ℕ := 30000

/-- Constant `INITIAL_RECONNECT_DELAY` (ms) from the agent WebSocket hook. -/
def INITIAL_RECONNECT_DELAY : ℕ := 1000

/-- The backoff cursor (`reconnectDelay` ref) of the hook. -/
structure AgentWsBackoff where
  reconnectDelay : ℕ
deriving DecidableEq, Repr

/-- Handler `ws.onopen`: the cursor is reset to the initial delay. -/
def onOpenBackoff (_s : AgentWsBackoff) : AgentWsBackoff :=
  { reconnectDelay := INITIAL_RECONNECT_DELAY }

/-- Handler `ws.onclose`: the reconnect timer is scheduled at the current cursor and
the cursor doubles up to the cap.  Returns (new cursor, scheduled delay). -/
def onCloseBackoff (s : AgentWsBackoff) : AgentWsBackoff × ℕ :=
  ({ reconnectDelay := min (s.reconnectDelay * 2) MAX_RECONNECT_DELAY }, s.reconnectDelay)

/-- One generic doubling step of the backoff cursor with cap `C`. -/
def backoffStep (C d : ℕ) : ℕ := min (d * 2) C

/-- The delay the Nth consecutive failure schedules (N ≥ 1): the cursor
after N-1 doubling steps from `d0`. -/
def scheduledDelay (d0 C N : ℕ) : ℕ := (backoffStep C)^[N - 1] d0

theorem backoff_closed_form (m d0 C : ℕ) (h : d0 ≤ C) :
    (backoffStep C)^[m] d0 = min (d0 * 2 ^ m) C := by
  induction m with
  | zero =>
      simp only [Function.iterate_zero, id_eq, pow_zero, mul_one]
      omega
  | succ n ih =>
      rw [Function.iterate_succ_apply', ih]
      unfold backoffStep
      rw [pow_succ, ← mul_assoc]
      generalize d0 * 2 ^ n = a
      omega

/-- C6: in the exponential-backoff reconnect policy with initial delay d0 and
cap C (d0 ≤ C), the Nth consecutive failure schedules the reconnect timer at
`min(d0 * 2^(N-1), C)`; a successful open resets the cursor to d0; the code's
`onclose` handler schedules the current cursor and then applies exactly one
doubling step; and with the code's constants (d0 = 1s, C = 30s) the third
consecutive failure is scheduled at 4s, not 1s. -/
theorem backoff_schedule :
    (∀ d0 C N, 1 ≤ N → d0 ≤ C → scheduledDelay d0 C N = min (d0 * 2 ^ (N - 1)) C)
    ∧ (∀ s, (onOpenBackoff s).reconnectDelay = INITIAL_RECONNECT_DELAY)
    ∧ (∀ s, (onCloseBackoff s).2 = s.reconnectDelay
        ∧ (onCloseBackoff s).1.reconnectDelay = backoffStep MAX_RECONNECT_DELAY s.reconnectDelay)
    ∧ (onCloseBackoff ((onCloseBackoff ((onCloseBackoff
        { reconnectDelay := INITIAL_RECONNECT_DELAY }).1)).1)).2 = 4000
    ∧ scheduledDelay INITIAL_RECONNECT_DELAY MAX_RECONNECT_DELAY 3 = 4000 := by
  refine ⟨?_, fun s => rfl, fun s => ⟨rfl, rfl⟩, by decide, by decide⟩
  intro d0 C N _ h
  exact backoff_closed_form (N - 1) d0 C h

/-- Witness for C6's theorem: with d0 = 1000 ms and cap 30000 ms the third
failure is scheduled at `min(1000 * 2^2, 30000)`. -/
theorem backoff_schedule_witness :
    scheduledDelay 1000 30000 3 = min (1000 * 2 ^ (3 - 1)) 30000 :=
  backoff_schedule.1 1000 30000 3 (by decide) (by decide)

/- ============================================================
   REST price reconciliation (trading/page.tsx)
   ============================================================ -/

/-- Structure `PriceData` from types/trading.ts.  The source field `open` is renamed
`openPrice` (`open` is a Lean keyword). -/
structure PriceData where
  code : String
  price : ℚ
  change : ℚ
  changeRate : ℚ
  volume : ℚ
  high : ℚ
  low : ℚ
  openPrice : ℚ
  prevClose : ℚ
  timestamp : String
deriving DecidableEq, Repr

/-- One entry of `getBatchPrices`: `{stockCode, currentPrice, changePrice?,
changeRate?}`. -/
structure BatchPrice where
  stockCode : String
  currentPrice : ℚ
  changePrice : Option ℚ
  changeRate : Option ℚ
deriving DecidableEq, Repr

/-- The selected-price update of `fetchBatchPrices` (page.tsx): given the
batch entry `p` for the selected code and the previous SelectedPrice, apply
the REST price only when it is positive and differs from the previous price
(`!prev || prev.price !== p.currentPrice`); otherwise leave the state
untouched. -/
def applyBatchPriceToCurrent (selCode : String) (p : BatchPrice)
    (prev : Option PriceData) (now : String) : Option PriceData :=
  if 0 < p.currentPrice then
    if prev.all (fun pr => decide (pr.price ≠ p.currentPrice)) then
      some { code := selCode
             price := p.currentPrice
             change := p.changePrice.getD ((prev.map (·.change)).getD 0)
             changeRate := p.changeRate.getD ((prev.map (·.changeRate)).getD 0)
             volume := (prev.map (·.volume)).getD 0
             high := (prev.map (·.high)).getD p.currentPrice
             low := (prev.map (·.low)).getD p.currentPrice
             openPrice := (prev.map (·.openPrice)).getD p.currentPrice
             prevClose := p.currentPrice - p.changePrice.getD 0
             timestamp := now }
    else prev
  else prev

/-- The on-selection REST load (page.tsx, `getPrice` effect): whenever the
fetched price is positive, `setCurrentPrice(priceData)` is called
unconditionally — no comparison against the previous SelectedPrice. -/
def applyGetPriceToCurrent (priceData : PriceData) (prev : Option PriceData) :
    Option PriceData :=
  if 0 < priceData.price then some priceData else prev

/-- A concrete push-derived SelectedPrice. -/
def fixPrev : PriceData :=
  { code := "005930", price := 71000, change := 500, changeRate := 1, volume := 100,
    high := 71500, low := 70000, openPrice := 70500, prevClose := 70500, timestamp := "t1" }

/-- A REST-fetched price equal in price to `fixPrev` but differing in volume
and timestamp. -/
def fixFetched : PriceData :=
  { fixPrev with volume := 200, timestamp := "t2" }

/-- C2 (counterexample): the claim says every REST price path leaves the
push-derived SelectedPrice untouched when the fetched price equals the last
known price, but the on-selection `getPrice` path overwrites it
unconditionally: with an equal price (71,000) it still replaces the state
(the stored volume/timestamp change). -/
theorem rest_on_select_overwrites_cex :
    fixFetched.price = fixPrev.price
    ∧ applyGetPriceToCurrent fixFetched (some fixPrev) = some fixFetched
    ∧ applyGetPriceToCurrent fixFetched (some fixPrev) ≠ some fixPrev :=
  ⟨by decide, by decide, by decide⟩

/-- C2 (amended): the batch-price reconciler follows the compare-by-price
rule — it leaves the push-derived SelectedPrice untouched when the fetched
price equals the last known price, and applies the fetched price when it is
positive and differs — but the on-selection `getPrice` path overwrites
SelectedPrice whenever the fetched price is positive, even when it equals
the last known price. -/
theorem restPrice_reconciliation (selCode : String) (p : BatchPrice) (pr : PriceData)
    (now : String) (q : PriceData) (prev : Option PriceData) :
    (pr.price = p.currentPrice → applyBatchPriceToCurrent selCode p (some pr) now = some pr)
    ∧ (0 < p.currentPrice → pr.price ≠ p.currentPrice →
        (applyBatchPriceToCurrent selCode p (some pr) now).map (·.price) = some p.currentPrice)
    ∧ (0 < q.price → applyGetPriceToCurrent q prev = some q) := by
  refine ⟨?_, ?_, ?_⟩
  · intro he
    unfold applyBatchPriceToCurrent
    split_ifs with h1 h2
    · simp [Option.all, he] at h2
    · rfl
    · rfl
  · intro hpos hne
    unfold applyBatchPriceToCurrent
    rw [if_pos hpos, if_pos (by simp [Option.all, hne])]
    rfl
  · intro hq
    simp [applyGetPriceToCurrent, hq]

/-- A concrete batch entry for the selected code. -/
def fixBatch : BatchPrice :=
  { stockCode := "005930", currentPrice := 71000, changePrice := some 500,
    changeRate := some 1 }

/-- Witness for C2's theorem: the equal-price batch entry leaves the
push-derived state untouched, and the on-selection path overwrites. -/
theorem restPrice_reconciliation_witness :
    applyBatchPriceToCurrent "005930" fixBatch (some fixPrev) "t2" = some fixPrev
    ∧ applyGetPriceToCurrent fixFetched (some fixPrev) = some fixFetched :=
  ⟨(restPrice_reconciliation "005930" fixBatch fixPrev "t2" fixFetched
      (some fixPrev)).1 (by decide),
   (restPrice_reconciliation "005930" fixBatch fixPrev "t2" fixFetched
      (some fixPrev)).2.2 (by decide)⟩


/- ============================================================
   Claims about the tick rules
   ============================================================ -/

/-- C4 (counterexample): the claim quantifies over every price in every tick
band, but for an off-grid price it fails: 2003 sits in the 5-won band, so
`tickUp 2003 = 2008`, while `roundToTickDown 2008 = 2005 ≠ 2008`. -/
theorem roundDown_tickUp_offgrid_cex :
    tickUp (2003 : ℚ) = 2008 ∧ roundToTickDown (2008 : ℚ) = 2005 := by
  constructor
  · norm_num [tickUp, getTickSize]
  · norm_num [roundToTickDown, getTickSize]

/-- C4 (amended): for every price that lies on the tick grid (an integer
multiple of its own tick size), `roundToTickDown (tickUp p) = tickUp p`, and
for every price whatsoever `tickDown p` is at least the tick size of `p` and
hence positive. -/
theorem tick_grid_props :
    (∀ p : ℚ, (∃ k : ℤ, p = k * getTickSize p) →
        roundToTickDown (tickUp p) = tickUp p)
    ∧ (∀ p : ℚ, getTickSize p ≤ tickDown p ∧ 0 < tickDown p) := by
  constructor
  · intro p hk
    rcases hk with ⟨k, hk⟩
    exact roundDown_tickUp_grid p k hk
  · intro p
    constructor
    · exact le_max_left _ _
    · exact lt_of_lt_of_le (getTickSize_pos p) (le_max_left _ _)

/-- Witness for C4's theorem at the grid price 2005 = 401 · 5. -/
theorem tick_grid_props_witness :
    roundToTickDown (tickUp (2005 : ℚ)) = tickUp (2005 : ℚ)
    ∧ getTickSize (2005 : ℚ) ≤ tickDown (2005 : ℚ) :=
  ⟨tick_grid_props.1 2005 ⟨401, by norm_num [getTickSize]⟩, (tick_grid_props.2 2005).1⟩

/-- C9: the source tick rules coincide with the spec's banded table and
formulas: `getTickSize` is exactly the spec's table, and for every price
`roundToTickDown p = floor(p/tick)*tick`, `tickUp p = p + tick`, and
`tickDown p = max(tick, p - tick)`. -/
theorem tick_rules_match_spec :
    ∀ p : ℚ, getTickSize p = specTickSize p
      ∧ roundToTickDown p = specRoundDown p
      ∧ tickUp p = specTickUp p
      ∧ tickDown p = specTickDown p :=
  fun _ => ⟨rfl, rfl, rfl, rfl⟩
